import Mathlib

/-!
Verification of the Statement & Chunk Store of the worlds-design repository.

The development shallowly embeds the `SqliteSearchStore` class
(src/paper/src/search-store/sqlite-search-store.test.ts, which inlines
sqlite-search-store.ts) together with the `kb_statements` schema and the
`kb_statements_ad_bn` recursive cascade trigger (src/sqlite/usage.ts).
The SQLite statement table is modelled as a list of rows kept in
`statement_id` (rowid) order; `AUTOINCREMENT` is modelled by a `nextId`
counter.  RDF/JS terms are modelled as a closed tagged variant following
the RDF/JS data-factory semantics used by the store.
-/

namespace WorldsDesign

/-- Datatype IRI that the RDF/JS data factory assigns to a plain string
literal (`xsd:string`). -/
def xsdString : String := "http://www.w3.org/2001/XMLSchema#string"

/-- Datatype IRI that the RDF/JS data factory assigns to a language-tagged
literal (`rdf:langString`). -/
def langString : String := "http://www.w3.org/1999/02/22-rdf-syntax-ns#langString"

/-- RDF term, as a closed tagged variant: the four term kinds the store's
schema documents (`NamedNode`, `Literal`, `BlankNode`, `DefaultGraph`).
A literal carries its lexical value, language tag (empty when absent) and
datatype IRI, mirroring the RDF/JS `Literal` interface. -/
inductive Term where
  | namedNode (value : String)
  | blankNode (value : String)
  | literal (value : String) (language : String) (datatype : String)
  | defaultGraph
deriving DecidableEq, Repr

/-- RDF/JS `term.value`: the IRI of a named node, the label of a blank
node, the lexical form of a literal, and the empty string for the default
graph. -/
def Term.value : Term → String
  | .namedNode v => v
  | .blankNode v => v
  | .literal v _ _ => v
  | .defaultGraph => ""

/-- RDF/JS `term.termType`. -/
def Term.termType : Term → String
  | .namedNode _ => "NamedNode"
  | .blankNode _ => "BlankNode"
  | .literal _ _ _ => "Literal"
  | .defaultGraph => "DefaultGraph"

/-- RDF/JS `literal.language` (the store reads it only on literals). -/
def Term.language : Term → String
  | .literal _ l _ => l
  | _ => ""

/-- RDF/JS `literal.datatype.value` (the store reads it only on literals). -/
def Term.datatypeValue : Term → String
  | .literal _ _ d => d
  | _ => ""

/-- RDF/JS data factory `literal(value, language)` with a string second
argument: a non-empty language yields an `rdf:langString` literal, an
empty language yields a plain `xsd:string` literal. -/
def dfLiteralLang (value lang : String) : Term :=
  if lang = "" then .literal value "" xsdString else .literal value lang langString

/-- RDF/JS data factory `literal(value, namedNode(dt))` with a named-node
second argument: the named node becomes the datatype, the language is
empty. -/
def dfLiteralDatatype (value dt : String) : Term :=
  .literal value "" dt

/-- RDF/JS data factory `literal(value)`: a plain string literal, whose
datatype is `xsd:string`. -/
def dfLiteral (value : String) : Term :=
  .literal value "" xsdString

/-- RDF quad as handed to `addStatements`. -/
structure Quad where
  subject : Term
  predicate : Term
  object : Term
  graph : Term
deriving DecidableEq, Repr

/-- Columns of the `kb_statement_unique` composite unique index of
`kb_statements`: `(subject, predicate, object, graph, term_type,
object_language, object_datatype)`. -/
structure RowKey where
  subject : String
  predicate : String
  object : String
  graph : String
  termType : String
  objectLanguage : String
  objectDatatype : String
deriving DecidableEq, Repr

/-- Full `kb_statements` row: the unique-key columns plus the
`statement_id INTEGER PRIMARY KEY AUTOINCREMENT` column. -/
structure StatementRow extends RowKey where
  statementId : Nat
deriving DecidableEq, Repr

/-- Row values produced by `addStatements` for one quad: subject,
predicate, object and graph positions are stored as their `.value`
strings, and only the object's term type, language and datatype are
persisted (language and datatype are read only when the object is a
literal, otherwise the empty-string sentinel is stored). -/
def quadKey (q : Quad) : RowKey :=
  { subject := q.subject.value
    predicate := q.predicate.value
    object := q.object.value
    graph := q.graph.value
    termType := q.object.termType
    objectLanguage := if q.object.termType = "Literal" then q.object.language else ""
    objectDatatype := if q.object.termType = "Literal" then q.object.datatypeValue else "" }

/-- Row inserted for quad `q` when the autoincrement counter stands at
`i`. -/
def encodeQuad (q : Quad) (i : Nat) : StatementRow :=
  { toRowKey := quadKey q, statementId := i }

/-- State of the statement table: the autoincrement counter and the rows
in rowid order. -/
structure StoreState where
  nextId : Nat
  rows : List StatementRow
deriving DecidableEq, Repr

/-- Empty store whose autoincrement counter starts at 1, as SQLite
assigns 1 to the first inserted row. -/
def emptyStore : StoreState := ⟨1, []⟩

/-- Insertion of a single row with `ON CONFLICT DO NOTHING` against the
`kb_statement_unique` index: if a row with the same seven key columns
exists the insert is silently skipped, otherwise the row is appended with
a fresh `statement_id`. -/
def insertQuad (st : StoreState) (q : Quad) : StoreState :=
  if st.rows.any (fun r => r.toRowKey == quadKey q) then st
  else ⟨st.nextId + 1, st.rows ++ [encodeQuad q st.nextId]⟩

/-- Model of `SqliteSearchStore.addStatements`: a multi-row
`INSERT ... ON CONFLICT DO NOTHING`, processed row by row. -/
def addStatements (st : StoreState) (qs : List Quad) : StoreState :=
  qs.foldl insertQuad st

/-- Character-list prefix test. -/
def charsStart : List Char → List Char → Bool
  | [], _ => true
  | _ :: _, [] => false
  | p :: ps, c :: cs => p == c && charsStart ps cs

/-- String prefix test (model of JavaScript `String.prototype.startsWith`
and of a SQLite `LIKE` prefix pattern, over the character lists). -/
def strStarts (pat text : String) : Bool :=
  charsStart pat.toList text.toList

/-- ASCII-only lowercase folding, as applied by the SQLite `LIKE`
operator (which is case-insensitive for ASCII letters only). -/
def asciiLower (s : String) : String := ⟨s.toList.map Char.toLower⟩

/-- SQLite `text LIKE pat` for a pattern of the shape used by the
trigger, a literal prefix followed by a single trailing percent
wildcard: an ASCII-case-insensitive prefix test. -/
def likeStarts (pat text : String) : Bool :=
  strStarts (asciiLower pat) (asciiLower text)

/-- Model of the object reconstruction in `getStatements`: a `Literal`
row becomes `df.literal(row.object, row.objectLanguage ||
df.namedNode(row.objectDatatype))`; a `BlankNode` row becomes a blank
node only when the stored text starts with the prefix underscore-colon,
otherwise a named node; every other row becomes a named node. -/
def decodeObject (r : StatementRow) : Term :=
  if r.termType = "Literal" then
    if r.objectLanguage ≠ "" then dfLiteralLang r.object r.objectLanguage
    else dfLiteralDatatype r.object r.objectDatatype
  else if r.termType = "BlankNode" then
    if strStarts "_:" r.object then .blankNode ⟨r.object.toList.drop 2⟩
    else .namedNode r.object
  else .namedNode r.object

/-- Model of the object reconstruction in `getStatement` (it has no
blank-node branch: every non-literal row becomes a named node). -/
def decodeObjectById (r : StatementRow) : Term :=
  if r.termType = "Literal" then
    if r.objectLanguage ≠ "" then dfLiteralLang r.object r.objectLanguage
    else dfLiteralDatatype r.object r.objectDatatype
  else .namedNode r.object

/-- Quad built by `getStatements` from a row: subject, predicate and
graph are always rebuilt as named nodes from the stored strings. -/
def decodeRow (r : StatementRow) : Quad :=
  ⟨.namedNode r.subject, .namedNode r.predicate, decodeObject r, .namedNode r.graph⟩

/-- Quad built by `getStatement` from a row. -/
def decodeRowById (r : StatementRow) : Quad :=
  ⟨.namedNode r.subject, .namedNode r.predicate, decodeObjectById r, .namedNode r.graph⟩

/-- Rows selected by `getStatements`, i.e. `SELECT * FROM kb_statements
WHERE graph = ?` over the row list in rowid order (the query has no
`ORDER BY`; SQLite returns the rows of this single-table query in rowid
order, which the list order models). -/
def selectByGraph (st : StoreState) (graphId : String) : List StatementRow :=
  st.rows.filter (fun r => r.graph == graphId)

/-- Model of `SqliteSearchStore.getStatements`. -/
def getStatements (st : StoreState) (graphId : String) : List Quad :=
  (selectByGraph st graphId).map decodeRow

/-- JavaScript whitespace skipped by `parseInt` (ASCII subset). -/
def isJsSpace (c : Char) : Bool :=
  c == ' ' || c == '\t' || c == '\n' || c == '\r'

/-- Value of a decimal digit character, `none` on a non-digit. -/
def decDigit (c : Char) : Option Nat :=
  if '0' ≤ c ∧ c ≤ '9' then some (c.toNat - 48) else none

/-- Value of a hexadecimal digit character, `none` on a non-digit. -/
def hexDigit (c : Char) : Option Nat :=
  if '0' ≤ c ∧ c ≤ '9' then some (c.toNat - 48)
  else if 'a' ≤ c ∧ c ≤ 'f' then some (c.toNat - 87)
  else if 'A' ≤ c ∧ c ≤ 'F' then some (c.toNat - 55)
  else none

/-- Value of the longest digit prefix of `cs`, `none` when the prefix is
empty (the `NaN` case of `parseInt`). -/
def digitsValue (f : Char → Option Nat) (base : Nat) (cs : List Char) : Option Nat :=
  let ds := cs.takeWhile (fun c => (f c).isSome)
  if ds.isEmpty then none
  else some (ds.foldl (fun acc c => acc * base + (f c).getD 0) 0)

/-- Model of JavaScript `parseInt(s)` with no radix argument: leading
whitespace is skipped, an optional sign is read, a `0x`/`0X` prefix
selects base 16, and the longest digit prefix is converted; the result is
`none` exactly when `parseInt` yields `NaN`. -/
def jsParseInt (s : String) : Option Int :=
  let cs := s.toList.dropWhile isJsSpace
  let signed : Int × List Char :=
    match cs with
    | '-' :: rest => (-1, rest)
    | '+' :: rest => (1, rest)
    | _ => (1, cs)
  let based : Nat × (Char → Option Nat) × List Char :=
    match signed.2 with
    | '0' :: 'x' :: rest => (16, hexDigit, rest)
    | '0' :: 'X' :: rest => (16, hexDigit, rest)
    | _ => (10, decDigit, signed.2)
  (digitsValue based.2.1 based.1 based.2.2).map (fun n => signed.1 * n)

/-- Model of `SqliteSearchStore.getStatement`: parse the id, return
`null` on `NaN`, select the row with that `statement_id`, return `null`
when there is none. -/
def getStatement (st : StoreState) (statementId : String) : Option Quad :=
  match jsParseInt statementId with
  | none => none
  | some id =>
    match st.rows.find? (fun r => ((r.statementId : Int) == id)) with
    | none => none
    | some r => some (decodeRowById r)

/-- Model of `SqliteSearchStore.removeStatements`: `DELETE FROM
kb_statements WHERE graph = ?`. -/
def removeStatements (st : StoreState) (graphId : String) : StoreState :=
  ⟨st.nextId, st.rows.filter (fun r => !(r.graph == graphId))⟩

/-- Model of `SqliteSearchStore.removeStatement`: parse the id, return
without touching the table on `NaN`, else `DELETE ... WHERE statement_id
= ?` (the schema the store is tested against has no trigger). -/
def removeStatement (st : StoreState) (statementId : String) : StoreState :=
  match jsParseInt statementId with
  | none => st
  | some id => ⟨st.nextId, st.rows.filter (fun r => !((r.statementId : Int) == id))⟩

/-- Firing condition of the `kb_statements_ad_bn` trigger on a deleted
row: `old.term_type = 'BlankNode' OR old.object LIKE 'urn:uuid:%' OR
old.object LIKE '.well-known/genid/%'`. -/
def blankCond (r : StatementRow) : Bool :=
  r.termType == "BlankNode" || likeStarts "urn:uuid:" r.object ||
    likeStarts ".well-known/genid/" r.object

/-- Objects of the deleted rows on which the trigger fires; each becomes
the target of a recursive `DELETE FROM kb_statements WHERE subject =
old.object`, with no graph restriction. -/
def triggerObjects (deleted : List StatementRow) : List String :=
  (deleted.filter blankCond).map (fun r => r.object)

/-- Worklist computation of the recursive trigger cascade (requires
`PRAGMA recursive_triggers = ON`): pop a subject, delete every row with
that subject, enqueue the objects of the deleted rows on which the
trigger fires, and repeat.  Since triggers only ever delete rows, the
final table is the complement of the least set of rows closed under the
trigger rule, independent of processing order, which this worklist
computes.  The fuel argument only forces structural termination; the
measure `table.length + worklist.length` strictly decreases at each
step, so the fuel chosen by `cascadeDelete` is never exhausted. -/
def cascadeAux : Nat → List StatementRow → List String → List StatementRow
  | 0, t, _ => t
  | _ + 1, t, [] => t
  | fuel + 1, t, s :: ws =>
    let deleted := t.filter (fun r => r.subject == s)
    let rest := t.filter (fun r => !(r.subject == s))
    cascadeAux fuel rest (ws ++ triggerObjects deleted)

/-- Run the trigger cascade to completion on table `t` with initial
worklist `ws`. -/
def cascadeDelete (t : List StatementRow) (ws : List String) : List StatementRow :=
  cascadeAux (t.length + ws.length) t ws

/-- Model of `removeStatement` executed against the `usage.ts` schema,
where the `kb_statements_ad_bn` trigger is installed: the row with the
given id is deleted and the recursive blank-node cascade runs on the
objects of the deleted rows that satisfy the trigger condition. -/
def removeStatementCascade (t : List StatementRow) (statementId : String) :
    List StatementRow :=
  match jsParseInt statementId with
  | none => t
  | some id =>
    let deleted := t.filter (fun r => ((r.statementId : Int) == id))
    let rest := t.filter (fun r => !((r.statementId : Int) == id))
    cascadeDelete rest (triggerObjects deleted)

/-- Modelled from the spec: rank of a chunk id in one rank list.  The
hybrid RRF search routine itself is not present under src (only the SQL
fragment `SUM(s.score) ... ORDER BY rrf_score DESC` of the paper sketches
it), so the ranker is modelled from spec section 4.6.  A rank list is the
sequence of chunk ids from best to worst, rank 1 being the best; a chunk
absent from the list has no rank there. -/
def rankOf (l : List Nat) (c : Nat) : Option Nat :=
  (l.findIdx? (fun x => x == c)).map (fun i => i + 1)

/-- Modelled from the spec: contribution of one rank list to a chunk's
RRF score, `1 / (k + rank)` when the chunk appears in the list and zero
when it is absent. -/
def rrfContrib (k : Nat) : Option Nat → ℚ
  | none => 0
  | some r => 1 / ((k : ℚ) + (r : ℚ))

/-- Modelled from the spec: RRF score of a chunk, the sum of the
reciprocal-rank contributions over the full-text and vector rank lists. -/
def rrfScore (k : Nat) (fts vec : List Nat) (c : Nat) : ℚ :=
  rrfContrib k (rankOf fts c) + rrfContrib k (rankOf vec c)

/-- Modelled from the spec: output order of the hybrid ranker, by
descending score with ties broken by ascending chunk id. -/
def rrfLE (a b : Nat × ℚ) : Prop :=
  b.2 < a.2 ∨ (a.2 = b.2 ∧ a.1 ≤ b.1)

instance : DecidableRel rrfLE := fun a b => by
  unfold rrfLE
  exact inferInstance

instance : IsTotal (Nat × ℚ) rrfLE := by
  constructor
  intro a b
  rcases lt_trichotomy a.2 b.2 with h | h | h
  · exact Or.inr (Or.inl h)
  · rcases Nat.le_total a.1 b.1 with h1 | h1
    · exact Or.inl (Or.inr ⟨h, h1⟩)
    · exact Or.inr (Or.inr ⟨h.symm, h1⟩)
  · exact Or.inl (Or.inl h)

instance : IsTrans (Nat × ℚ) rrfLE := by
  constructor
  rintro a b c (hab | ⟨hab, hab1⟩) (hbc | ⟨hbc, hbc1⟩)
  · exact Or.inl (lt_trans hbc hab)
  · exact Or.inl (hbc ▸ hab)
  · exact Or.inl (hab ▸ hbc)
  · exact Or.inr ⟨hab.trans hbc, hab1.trans hbc1⟩

/-- Modelled from the spec: the hybrid RRF search.  Every chunk present
in either rank list is scored with `rrfScore` and the scored candidates
are sorted by descending score, ties broken by ascending chunk id. -/
def rrfSearch (k : Nat) (fts vec : List Nat) : List (Nat × ℚ) :=
  ((fts ++ vec).dedup.map (fun c => (c, rrfScore k fts vec c))).insertionSort rrfLE

/-- Test whether a term is a named node. -/
def Term.isNamedNode : Term → Bool
  | .namedNode _ => true
  | _ => false

/-- Quads on which the store's encode/decode pair is the identity:
subject, predicate and graph must be named nodes (only their `.value`
string is persisted and `getStatements` rebuilds all three as named
nodes), and the object must be a named node or a literal whose language
and datatype are consistent the way every factory-built literal is
(a language-tagged literal carries the `rdf:langString` datatype). -/
def roundTrippable (q : Quad) : Bool :=
  q.subject.isNamedNode && q.predicate.isNamedNode && q.graph.isNamedNode &&
    (match q.object with
     | .namedNode _ => true
     | .literal _ lang dt => lang == "" || dt == langString
     | _ => false)

/-- Does the table already hold a row with the seven unique-key columns
of quad `q`?  This is exactly the conflict test of `insertQuad`. -/
def keyPresent (st : StoreState) (q : Quad) : Bool :=
  st.rows.any (fun r => r.toRowKey == quadKey q)

/-- Statement ids of a row list, in list order. -/
def rowIds (l : List StatementRow) : List Nat :=
  l.map (fun r => r.statementId)

/-- Store invariant maintained by every operation: the rows are in
strictly increasing `statement_id` order (SQLite keeps a table scan in
rowid order and `AUTOINCREMENT` only ever appends larger ids) and every
id is below the autoincrement counter. -/
def stInv (st : StoreState) : Prop :=
  List.Pairwise (· < ·) (rowIds st.rows) ∧ ∀ r ∈ st.rows, r.statementId < st.nextId

/-- Cascade scenario of spec section 8, first row: `(A, p, _b1)` with a
skolemized blank-node object. -/
def cascadeRow1 : StatementRow :=
  ⟨⟨"A", "p", ".well-known/genid/b1", "g", "BlankNode", "", ""⟩, 1⟩

/-- Cascade scenario, second row: `(_b1, q, _b2)`. -/
def cascadeRow2 : StatementRow :=
  ⟨⟨".well-known/genid/b1", "q", ".well-known/genid/b2", "g", "BlankNode", "", ""⟩, 2⟩

/-- Cascade scenario, third row: `(_b2, r, "leaf")`. -/
def cascadeRow3 : StatementRow :=
  ⟨⟨".well-known/genid/b2", "r", "leaf", "g", "Literal", "", xsdString⟩, 3⟩

/-- Isolation scenario: a statement of world `g1` whose object is a
skolemized blank node. -/
def isoRowG1 : StatementRow :=
  ⟨⟨"A", "p", "urn:uuid:b1", "g1", "BlankNode", "", ""⟩, 1⟩

/-- Isolation scenario: a statement of a different world `g2` whose
subject text collides with the blank-node object stored in `g1`. -/
def isoRowG2 : StatementRow :=
  ⟨⟨"urn:uuid:b1", "q", "x", "g2", "NamedNode", "", ""⟩, 2⟩

/-- Stored literal row whose `object_language` and `object_datatype` are
both the empty string. -/
def rowBothEmpty : StatementRow :=
  ⟨⟨"s", "p", "x", "g", "Literal", "", ""⟩, 1⟩

/-- Quad with a blank-node object, as a data factory builds it: the
stored `.value` is the bare label. -/
def qBlankObject : Quad :=
  ⟨.namedNode "http://example.org/s", .namedNode "http://example.org/p",
    .blankNode "b1", .namedNode "http://example.org/g"⟩

/-- Quad with a language-tagged literal object. -/
def qLangLit : Quad :=
  ⟨.namedNode "http://example.org/s", .namedNode "http://example.org/p",
    .literal "hola" "es" langString, .namedNode "http://example.org/g"⟩

/-- Stored literal row with a non-empty language tag. -/
def rowLang : StatementRow :=
  ⟨⟨"s", "p", "hola", "g", "Literal", "es", langString⟩, 1⟩

/-- Sample stored row used to instantiate general theorems. -/
def sampleRow : StatementRow :=
  ⟨⟨"http://example.org/s1", "http://example.org/p1", "o1", "http://example.org/g1",
    "Literal", "", xsdString⟩, 1⟩

/-- Sample one-row store satisfying the store invariant. -/
def sampleStore : StoreState := ⟨2, [sampleRow]⟩

theorem decodeRow_terms (r : StatementRow) :
    (decodeRow r).subject.isNamedNode = true ∧ (decodeRow r).predicate.isNamedNode = true ∧
      (decodeRow r).graph.isNamedNode = true := by
  simp [decodeRow, Term.isNamedNode]

theorem decodeRowById_terms (r : StatementRow) :
    (decodeRowById r).subject.isNamedNode = true ∧
      (decodeRowById r).predicate.isNamedNode = true ∧
      (decodeRowById r).graph.isNamedNode = true := by
  simp [decodeRowById, Term.isNamedNode]

theorem insertQuad_of_present {st : StoreState} {q : Quad}
    (h : keyPresent st q = true) : insertQuad st q = st := by
  unfold keyPresent at h
  unfold insertQuad
  simp [h]

theorem keyPresent_insertQuad_self (st : StoreState) (q : Quad) :
    keyPresent (insertQuad st q) q = true := by
  unfold keyPresent insertQuad
  by_cases h : st.rows.any (fun r => r.toRowKey == quadKey q) = true
  · simp [h]
  · simp only [Bool.not_eq_true] at h
    simp [h, encodeQuad, List.any_append]

theorem keyPresent_insertQuad_mono (st : StoreState) (q q' : Quad)
    (h : keyPresent st q' = true) : keyPresent (insertQuad st q) q' = true := by
  unfold keyPresent at h ⊢
  unfold insertQuad
  by_cases hc : st.rows.any (fun r => r.toRowKey == quadKey q) = true
  · rw [if_pos hc]
    exact h
  · rw [if_neg hc]
    simp only [List.any_append, h, Bool.true_or]

theorem keyPresent_addStatements_mono (qs : List Quad) (st : StoreState) (q' : Quad)
    (h : keyPresent st q' = true) : keyPresent (addStatements st qs) q' = true := by
  induction qs generalizing st with
  | nil => exact h
  | cons a as ih =>
    simp only [addStatements, List.foldl_cons] at *
    exact ih (insertQuad st a) (keyPresent_insertQuad_mono st a q' h)

theorem keyPresent_addStatements_mem (qs : List Quad) (st : StoreState) (q : Quad)
    (h : q ∈ qs) : keyPresent (addStatements st qs) q = true := by
  induction qs generalizing st with
  | nil => cases h
  | cons a as ih =>
    simp only [addStatements, List.foldl_cons] at *
    rcases List.mem_cons.mp h with h | h
    · subst h
      exact keyPresent_addStatements_mono as (insertQuad st q) q
        (keyPresent_insertQuad_self st q)
    · exact ih (insertQuad st a) h

theorem addStatements_of_present (qs : List Quad) (st : StoreState)
    (h : ∀ q ∈ qs, keyPresent st q = true) : addStatements st qs = st := by
  induction qs generalizing st with
  | nil => rfl
  | cons a as ih =>
    simp only [addStatements, List.foldl_cons] at *
    rw [insertQuad_of_present (h a (List.mem_cons_self a as))]
    exact ih st (fun q hq => h q (List.mem_cons_of_mem a hq))

/-- C4: statement insertion is idempotent and a duplicate is silently
skipped.  Re-applying `addStatements` to an identical batch leaves the
table unchanged (the model is a total function, so duplicate ingestion
never raises an error), and inserting the same statement twice into a
table that did not hold it yields exactly one row with its unique-key
columns. -/
theorem claim_C4 :
    (∀ st qs, addStatements (addStatements st qs) qs = addStatements st qs) ∧
    (∀ st q, st.rows.countP (fun r => r.toRowKey == quadKey q) = 0 →
      (addStatements st [q, q]).rows.countP (fun r => r.toRowKey == quadKey q) = 1) := by
  constructor
  · intro st qs
    exact addStatements_of_present qs (addStatements st qs)
      (fun q hq => keyPresent_addStatements_mem qs st q hq)
  · intro st q h
    have hnone : ∀ r ∈ st.rows, ¬(r.toRowKey == quadKey q) = true :=
      List.countP_eq_zero.mp h
    have hany : st.rows.any (fun r => r.toRowKey == quadKey q) = false := by
      rw [List.any_eq_false]
      exact hnone
    have h1 : insertQuad st q = ⟨st.nextId + 1, st.rows ++ [encodeQuad q st.nextId]⟩ := by
      unfold insertQuad
      simp [hany]
    have h2 : addStatements st [q, q] = insertQuad st q := by
      simp only [addStatements, List.foldl_cons, List.foldl_nil]
      exact insertQuad_of_present (keyPresent_insertQuad_self st q)
    rw [h2, h1]
    simp [List.countP_append, List.countP_cons, h, encodeQuad]

/-- C4 witness: idempotence and single-row deduplication at a concrete
quad and the empty store. -/
theorem claim_C4_witness :
    addStatements (addStatements emptyStore [qLangLit]) [qLangLit] =
      addStatements emptyStore [qLangLit] ∧
    (addStatements emptyStore [qLangLit, qLangLit]).rows.countP
      (fun r => r.toRowKey == quadKey qLangLit) = 1 :=
  ⟨claim_C4.1 emptyStore [qLangLit], claim_C4.2 emptyStore qLangLit (by decide)⟩

/-- C5 counterexample: the stored literal row whose `object_language`
and `object_datatype` are both empty does not decode to a plain string
literal (`xsd:string` datatype); it decodes to a literal whose datatype
is the empty string, because the code always passes
`namedNode(row.objectDatatype)` when the language is empty. -/
theorem claim_C5_counterexample :
    decodeObject rowBothEmpty = Term.literal "x" "" "" ∧
    decodeObjectById rowBothEmpty = Term.literal "x" "" "" ∧
    decodeObject rowBothEmpty ≠ dfLiteral "x" := by
  refine ⟨rfl, rfl, ?_⟩
  decide

/-- C5 amended: decoding a stored `Literal` row prefers the language
when non-empty (producing a language-tagged `rdf:langString` literal);
otherwise it produces a literal carrying the stored `object_datatype`
verbatim as its datatype — a datatype-tagged literal when the stored
datatype is non-empty, and a literal with the empty string as datatype
(not a plain `xsd:string` literal) when both fields are empty. -/
theorem claim_C5_amended (r : StatementRow) (h : r.termType = "Literal") :
    (r.objectLanguage ≠ "" →
      decodeObject r = Term.literal r.object r.objectLanguage langString ∧
      decodeObjectById r = Term.literal r.object r.objectLanguage langString) ∧
    (r.objectLanguage = "" →
      decodeObject r = Term.literal r.object "" r.objectDatatype ∧
      decodeObjectById r = Term.literal r.object "" r.objectDatatype) := by
  constructor
  · intro hl
    constructor
    · simp [decodeObject, h, hl, dfLiteralLang]
    · simp [decodeObjectById, h, hl, dfLiteralLang]
  · intro hl
    constructor
    · simp [decodeObject, h, hl, dfLiteralDatatype]
    · simp [decodeObjectById, h, hl, dfLiteralDatatype]

/-- C5 amended witness: the two branches evaluated at concrete rows. -/
theorem claim_C5_amended_witness :
    (decodeObject rowLang = Term.literal "hola" "es" langString ∧
      decodeObjectById rowLang = Term.literal "hola" "es" langString) ∧
    (decodeObject rowBothEmpty = Term.literal "x" "" "" ∧
      decodeObjectById rowBothEmpty = Term.literal "x" "" "") :=
  ⟨(claim_C5_amended rowLang rfl).1 (by decide),
   (claim_C5_amended rowBothEmpty rfl).2 rfl⟩

/-- C6: `getStatement` returns `null` rather than raising when the id
string parses to `NaN`, and returns `null` when no row carries the
parsed id; it is a total function of the store and the id string. -/
theorem claim_C6 (st : StoreState) (sid : String) :
    (jsParseInt sid = none → getStatement st sid = none) ∧
    (∀ n : Int, jsParseInt sid = some n →
      (∀ r ∈ st.rows, (r.statementId : Int) ≠ n) → getStatement st sid = none) := by
  constructor
  · intro h
    simp [getStatement, h]
  · intro n h hall
    have hf : st.rows.find? (fun r => ((r.statementId : Int) == n)) = none := by
      rw [List.find?_eq_none]
      intro r hr
      simpa using hall r hr
    simp [getStatement, h, hf]

/-- C6 witness: a malformed id on the empty store and an absent id on a
one-row store both yield `null`. -/
theorem claim_C6_witness :
    getStatement emptyStore "abc" = none ∧ getStatement sampleStore "99" = none :=
  ⟨(claim_C6 emptyStore "abc").1 rfl,
   (claim_C6 sampleStore "99").2 99 rfl (by decide)⟩

/-- C9: when the id string parses to `NaN`, `removeStatement` returns
without error and leaves the table unchanged, both in the plain store
schema and in the `usage.ts` schema with the cascade trigger installed
(so no cascade is triggered either). -/
theorem claim_C9 (st : StoreState) (t : List StatementRow) (sid : String)
    (h : jsParseInt sid = none) :
    removeStatement st sid = st ∧ removeStatementCascade t sid = t := by
  constructor
  · simp [removeStatement, h]
  · simp [removeStatementCascade, h]

/-- C9 witness: a non-numeric id leaves a concrete store untouched. -/
theorem claim_C9_witness :
    removeStatement sampleStore "abc" = sampleStore ∧
    removeStatementCascade [sampleRow] "abc" = [sampleRow] :=
  claim_C9 sampleStore [sampleRow] "abc" rfl

/-- C10: every quad returned by `getStatements` or `getStatement` has a
named-node subject, predicate and graph, whatever the term types of the
ingested quads were: only the object's term type is persisted per row. -/
theorem claim_C10 (st : StoreState) (g sid : String) (q : Quad) :
    (q ∈ getStatements st g →
      q.subject.isNamedNode = true ∧ q.predicate.isNamedNode = true ∧
        q.graph.isNamedNode = true) ∧
    (getStatement st sid = some q →
      q.subject.isNamedNode = true ∧ q.predicate.isNamedNode = true ∧
        q.graph.isNamedNode = true) := by
  constructor
  · intro hmem
    rcases List.mem_map.mp hmem with ⟨r, -, rfl⟩
    exact decodeRow_terms r
  · intro h
    cases hp : jsParseInt sid with
    | none => simp [getStatement, hp] at h
    | some n =>
      cases hf : st.rows.find? (fun r => ((r.statementId : Int) == n)) with
      | none => simp [getStatement, hp, hf] at h
      | some r =>
        simp only [getStatement, hp, hf, Option.some.injEq] at h
        subst h
        exact decodeRowById_terms r

/-- C10 witness: both retrieval paths instantiated on a one-row store. -/
theorem claim_C10_witness :
    ((decodeRow sampleRow).subject.isNamedNode = true ∧
      (decodeRow sampleRow).predicate.isNamedNode = true ∧
      (decodeRow sampleRow).graph.isNamedNode = true) ∧
    ((decodeRowById sampleRow).subject.isNamedNode = true ∧
      (decodeRowById sampleRow).predicate.isNamedNode = true ∧
      (decodeRowById sampleRow).graph.isNamedNode = true) :=
  ⟨(claim_C10 sampleStore "http://example.org/g1" "1" (decodeRow sampleRow)).1 (by decide),
   (claim_C10 sampleStore "http://example.org/g1" "1" (decodeRowById sampleRow)).2 rfl⟩

theorem isNamedNode_eq (t : Term) (h : t.isNamedNode = true) : ∃ v, t = .namedNode v := by
  cases t <;> simp [Term.isNamedNode] at h ⊢

theorem roundtrip_row (q : Quad) (i : Nat) (h : roundTrippable q = true) :
    decodeRow (encodeQuad q i) = q := by
  obtain ⟨s, p, o, g⟩ := q
  simp only [roundTrippable, Bool.and_eq_true] at h
  obtain ⟨⟨⟨hs, hp⟩, hg⟩, ho⟩ := h
  obtain ⟨sv, rfl⟩ := isNamedNode_eq _ hs
  obtain ⟨pv, rfl⟩ := isNamedNode_eq _ hp
  obtain ⟨gv, rfl⟩ := isNamedNode_eq _ hg
  cases o with
  | namedNode ov =>
    simp [decodeRow, encodeQuad, quadKey, decodeObject, Term.value, Term.termType]
  | blankNode bv => simp at ho
  | defaultGraph => simp at ho
  | literal v lang dt =>
    by_cases hl : lang = ""
    · subst hl
      simp [decodeRow, encodeQuad, quadKey, decodeObject, Term.value, Term.termType,
        Term.language, Term.datatypeValue, dfLiteralDatatype]
    · have hdt : dt = langString := by
        have ho' : lang = "" ∨ dt = langString := by simpa using ho
        rcases ho' with h1 | h1
        · exact absurd h1 hl
        · exact h1
      subst hdt
      simp [decodeRow, encodeQuad, quadKey, decodeObject, Term.value, Term.termType,
        Term.language, Term.datatypeValue, dfLiteralLang, hl]

/-- C1 counterexample: a quad with a blank-node object does not round
trip through the store.  The stored value of a blank node is its bare
label, which does not start with the underscore-colon prefix, so
`getStatements` rebuilds the object as a named node. -/
theorem claim_C1_counterexample :
    getStatements (addStatements emptyStore [qBlankObject]) "http://example.org/g" =
      [⟨.namedNode "http://example.org/s", .namedNode "http://example.org/p",
        .namedNode "b1", .namedNode "http://example.org/g"⟩] ∧
    getStatements (addStatements emptyStore [qBlankObject]) "http://example.org/g" ≠
      [qBlankObject] := by
  refine ⟨rfl, ?_⟩
  decide

/-- C1 amended: the encode/decode pair is the identity exactly on quads
whose subject, predicate and graph are named nodes and whose object is a
named node or a factory-consistent literal; such a quad ingested by
`addStatements` is returned verbatim by `getStatements`.  Quads holding a
blank node or the default graph in any position are not reproduced (all
non-object positions come back as named nodes and a blank-node object
comes back as a named node). -/
theorem claim_C1_amended (q : Quad) (i n : Nat) (h : roundTrippable q = true) :
    decodeRow (encodeQuad q i) = q ∧
    getStatements (addStatements ⟨n, []⟩ [q]) q.graph.value = [q] := by
  refine ⟨roundtrip_row q i h, ?_⟩
  have hadd : addStatements ⟨n, []⟩ [q] = ⟨n + 1, [encodeQuad q n]⟩ := by
    simp [addStatements, insertQuad]
  rw [hadd]
  have hg : ((encodeQuad q n).graph == q.graph.value) = true := by
    simp [encodeQuad, quadKey]
  simp only [getStatements, selectByGraph, List.filter_cons, hg, List.filter_nil,
    if_true, List.map_cons, List.map_nil]
  rw [roundtrip_row q n h]

/-- C1 amended witness: a language-tagged literal quad round trips. -/
theorem claim_C1_amended_witness :
    decodeRow (encodeQuad qLangLit 5) = qLangLit ∧
    getStatements (addStatements ⟨1, []⟩ [qLangLit]) qLangLit.graph.value = [qLangLit] :=
  claim_C1_amended qLangLit 5 1 (by decide)

theorem filter_graph_of_ne (l : List StatementRow) (g1 g2 : String) (h : g1 ≠ g2) :
    (l.filter (fun r => !(r.graph == g1))).filter (fun r => r.graph == g2) =
      l.filter (fun r => r.graph == g2) := by
  induction l with
  | nil => rfl
  | cons r rest ih =>
    by_cases h1 : r.graph = g1 <;> by_cases h2 : r.graph = g2
    · exact absurd (h1.symm.trans h2) h
    · have e1 : (r.graph == g1) = true := by simp [h1]
      have e2 : (r.graph == g2) = false := by simp [h2]
      simp [List.filter_cons, e1, e2, ih]
    · have e1 : (r.graph == g1) = false := by simp [h1]
      have e2 : (r.graph == g2) = true := by simp [h2]
      simp [List.filter_cons, e1, e2, ih]
    · have e1 : (r.graph == g1) = false := by simp [h1]
      have e2 : (r.graph == g2) = false := by simp [h2]
      simp [List.filter_cons, e1, e2, ih]

theorem insertQuad_filter_graph (st : StoreState) (a : Quad) (g2 : String)
    (h : a.graph.value ≠ g2) :
    (insertQuad st a).rows.filter (fun r => r.graph == g2) =
      st.rows.filter (fun r => r.graph == g2) := by
  unfold insertQuad
  by_cases hc : st.rows.any (fun r => r.toRowKey == quadKey a) = true
  · rw [if_pos hc]
  · rw [if_neg hc]
    simp [List.filter_append, List.filter_cons, encodeQuad, quadKey, h]

/-- C2 counterexample: the cascade trigger is not graph-scoped.  With
statement 1 in world `g1` holding a skolemized blank-node object, and a
statement in world `g2` whose subject text collides with it, deleting
statement 1 (an operation scoped to `g1`) also deletes the `g2` row. -/
theorem claim_C2_counterexample :
    isoRowG1.graph = "g1" ∧ isoRowG1.statementId = 1 ∧ isoRowG2.graph = "g2" ∧
    removeStatementCascade [isoRowG1, isoRowG2] "1" = [] := by
  exact ⟨rfl, rfl, rfl, rfl⟩

/-- C2 amended: the store's non-cascading operations are graph-isolated
(`getStatements` returns only quads of the requested graph,
`removeStatements` leaves the rows of every other graph untouched,
`addStatements` leaves the rows of any graph not among the ingested
quads' graphs untouched, and `removeStatement` deletes nothing but the
row carrying the parsed id) — but the `kb_statements_ad_bn` cascade
trigger is not graph-scoped and may delete rows of a different graph
whose subject equals a deleted blank-node object. -/
theorem claim_C2_amended :
    (∀ st g q, q ∈ getStatements st g → q.graph = Term.namedNode g) ∧
    (∀ st g1 g2, g1 ≠ g2 →
      (removeStatements st g1).rows.filter (fun r => r.graph == g2) =
        st.rows.filter (fun r => r.graph == g2)) ∧
    (∀ st qs g2, (∀ q ∈ qs, q.graph.value ≠ g2) →
      (addStatements st qs).rows.filter (fun r => r.graph == g2) =
        st.rows.filter (fun r => r.graph == g2)) ∧
    (∀ st sid r, r ∈ st.rows →
      (∀ n : Int, jsParseInt sid = some n → (r.statementId : Int) ≠ n) →
      r ∈ (removeStatement st sid).rows) := by
  refine ⟨?_, ?_, ?_, ?_⟩
  · intro st g q hq
    rcases List.mem_map.mp hq with ⟨r, hr, rfl⟩
    have := (List.mem_filter.mp hr).2
    have hrg : r.graph = g := by simpa using this
    simp [decodeRow, hrg]
  · intro st g1 g2 h
    exact filter_graph_of_ne st.rows g1 g2 h
  · intro st qs g2 h
    induction qs generalizing st with
    | nil => rfl
    | cons a as ih =>
      simp only [addStatements, List.foldl_cons]
      have step := insertQuad_filter_graph st a g2 (h a (List.mem_cons_self a as))
      calc (List.foldl insertQuad (insertQuad st a) as).rows.filter (fun r => r.graph == g2)
          = (insertQuad st a).rows.filter (fun r => r.graph == g2) :=
            ih (insertQuad st a) (fun q hq => h q (List.mem_cons_of_mem a hq))
        _ = st.rows.filter (fun r => r.graph == g2) := step
  · intro st sid r hr hne
    cases hp : jsParseInt sid with
    | none => simpa [removeStatement, hp] using hr
    | some n =>
      have : ((r.statementId : Int) == n) = false := by
        simpa using hne n hp
      simp [removeStatement, hp, List.mem_filter, hr, this]

/-- C2 amended witness: the four isolation conjuncts instantiated at
concrete stores, graphs and ids. -/
theorem claim_C2_amended_witness :
    (decodeRow sampleRow).graph = Term.namedNode "http://example.org/g1" ∧
    (removeStatements sampleStore "gX").rows.filter
      (fun r => r.graph == "http://example.org/g1") =
      sampleStore.rows.filter (fun r => r.graph == "http://example.org/g1") ∧
    (addStatements sampleStore [qLangLit]).rows.filter (fun r => r.graph == "zzz") =
      sampleStore.rows.filter (fun r => r.graph == "zzz") ∧
    sampleRow ∈ (removeStatement sampleStore "99").rows := by
  refine ⟨?_, ?_, ?_, ?_⟩
  · exact claim_C2_amended.1 sampleStore "http://example.org/g1" (decodeRow sampleRow)
      (by decide)
  · exact claim_C2_amended.2.1 sampleStore "gX" "http://example.org/g1" (by decide)
  · exact claim_C2_amended.2.2.1 sampleStore [qLangLit] "zzz" (by decide)
  · refine claim_C2_amended.2.2.2 sampleStore "99" sampleRow (by decide) ?_
    intro n hn
    rw [show jsParseInt "99" = some 99 from rfl] at hn
    cases hn
    decide

theorem stInv_insertQuad (st : StoreState) (q : Quad) (h : stInv st) :
    stInv (insertQuad st q) := by
  obtain ⟨hsort, hbound⟩ := h
  unfold insertQuad
  by_cases hc : st.rows.any (fun r => r.toRowKey == quadKey q) = true
  · rw [if_pos hc]
    exact ⟨hsort, hbound⟩
  · rw [if_neg hc]
    constructor
    · unfold rowIds at hsort ⊢
      rw [List.map_append, List.pairwise_append]
      refine ⟨hsort, List.pairwise_singleton _ _, ?_⟩
      intro a ha b hb
      simp only [List.map_cons, List.map_nil, List.mem_singleton, encodeQuad] at hb
      subst hb
      rcases List.mem_map.mp ha with ⟨r, hr, rfl⟩
      exact hbound r hr
    · intro r hr
      rcases List.mem_append.mp hr with hr | hr
      · exact Nat.lt_succ_of_lt (hbound r hr)
      · simp only [List.mem_singleton] at hr
        subst hr
        exact Nat.lt_succ_self _

theorem stInv_addStatements (qs : List Quad) (st : StoreState) (h : stInv st) :
    stInv (addStatements st qs) := by
  induction qs generalizing st with
  | nil => exact h
  | cons a as ih =>
    simp only [addStatements, List.foldl_cons] at *
    exact ih (insertQuad st a) (stInv_insertQuad st a h)

theorem stInv_filter (st : StoreState) (p : StatementRow → Bool) (h : stInv st) :
    stInv ⟨st.nextId, st.rows.filter p⟩ := by
  obtain ⟨hsort, hbound⟩ := h
  constructor
  · unfold rowIds at hsort ⊢
    have hsort' : st.rows.Pairwise (fun a b => a.statementId < b.statementId) :=
      List.pairwise_map.mp hsort
    exact List.pairwise_map.mpr (hsort'.sublist (List.filter_sublist _))
  · intro r hr
    exact hbound r (List.mem_of_mem_filter hr)

/-- C7: the row sequence backing `getStatements` is in strictly
ascending `statement_id` order.  The query carries no `ORDER BY`, but the
table scan is modelled in rowid order; every store operation preserves
the invariant that rows are sorted by id with all ids below the
autoincrement counter, and the graph filter preserves sortedness. -/
theorem claim_C7 :
    stInv emptyStore ∧
    (∀ st g, stInv st → List.Pairwise (· < ·) (rowIds (selectByGraph st g))) ∧
    (∀ st qs, stInv st → stInv (addStatements st qs)) ∧
    (∀ st g, stInv st → stInv (removeStatements st g)) ∧
    (∀ st sid, stInv st → stInv (removeStatement st sid)) := by
  refine ⟨?_, ?_, ?_, ?_, ?_⟩
  · exact ⟨List.Pairwise.nil, by intro r hr; cases hr⟩
  · intro st g h
    exact (stInv_filter st (fun r => r.graph == g) h).1
  · intro st qs h
    exact stInv_addStatements qs st h
  · intro st g h
    exact stInv_filter st _ h
  · intro st sid h
    cases hp : jsParseInt sid with
    | none => simpa [removeStatement, hp] using h
    | some n =>
      have := stInv_filter st (fun r => !((r.statementId : Int) == n)) h
      simpa [removeStatement, hp] using this

/-- C7 witness: the returned row ids of a concrete two-row store are
strictly increasing. -/
theorem claim_C7_witness :
    List.Pairwise (· < ·)
      (rowIds (selectByGraph ⟨3, [sampleRow, ⟨⟨"s2", "p2", "o2",
        "http://example.org/g1", "NamedNode", "", ""⟩, 2⟩]⟩ "http://example.org/g1")) :=
  claim_C7.2.1 ⟨3, [sampleRow, ⟨⟨"s2", "p2", "o2", "http://example.org/g1",
    "NamedNode", "", ""⟩, 2⟩]⟩ "http://example.org/g1"
    (by unfold stInv rowIds; exact ⟨by decide, by decide⟩)

theorem length_filter_not {α : Type _} (l : List α) (p : α → Bool) :
    (l.filter p).length + (l.filter (fun a => !p a)).length = l.length := by
  induction l with
  | nil => rfl
  | cons a rest ih =>
    by_cases h : p a = true
    · simp [List.filter_cons, h]
      omega
    · simp only [Bool.not_eq_true] at h
      simp [List.filter_cons, h]
      omega

theorem cascadeAux_subset : ∀ (fuel : Nat) (t : List StatementRow) (ws : List String)
    (r : StatementRow), r ∈ cascadeAux fuel t ws → r ∈ t := by
  intro fuel
  induction fuel with
  | zero =>
    intro t ws r h
    simpa [cascadeAux] using h
  | succ f ih =>
    intro t ws r h
    cases ws with
    | nil => simpa [cascadeAux] using h
    | cons s ws' =>
      simp only [cascadeAux] at h
      exact (List.mem_filter.mp (ih _ _ _ h)).1

theorem cascade_fuel_step (t : List StatementRow) (s : String) (ws' : List String)
    (f : Nat) (h : t.length + (ws'.length + 1) ≤ f + 1) :
    (t.filter (fun r => !(r.subject == s))).length +
      (ws' ++ triggerObjects (t.filter (fun r => r.subject == s))).length ≤ f := by
  have hsplit := length_filter_not t (fun r => r.subject == s)
  have htrig : (triggerObjects (t.filter (fun r => r.subject == s))).length ≤
      (t.filter (fun r => r.subject == s)).length := by
    unfold triggerObjects
    rw [List.length_map]
    exact List.length_filter_le _ _
  rw [List.length_append]
  omega

theorem cascadeAux_clears : ∀ (fuel : Nat) (t : List StatementRow) (ws : List String),
    t.length + ws.length ≤ fuel → ∀ s ∈ ws, ∀ r ∈ cascadeAux fuel t ws,
      r.subject ≠ s := by
  intro fuel
  induction fuel with
  | zero =>
    intro t ws hle s hs
    cases ws with
    | nil => cases hs
    | cons a l =>
      simp only [List.length_cons] at hle
      omega
  | succ f ih =>
    intro t ws hle s hs r hr
    cases ws with
    | nil => cases hs
    | cons s0 ws' =>
      simp only [cascadeAux] at hr
      have hfuel := cascade_fuel_step t s0 ws' f (by simpa using hle)
      rcases List.mem_cons.mp hs with rfl | hs'
      · have hrest := cascadeAux_subset f _ _ r hr
        have hb := (List.mem_filter.mp hrest).2
        simpa using hb
      · exact ih _ _ hfuel s (List.mem_append_left _ hs') r hr

theorem cascadeAux_complete : ∀ (fuel : Nat) (t : List StatementRow) (ws : List String),
    t.length + ws.length ≤ fuel →
    ∀ r ∈ t, r ∉ cascadeAux fuel t ws → blankCond r = true →
    ∀ x ∈ cascadeAux fuel t ws, x.subject ≠ r.object := by
  intro fuel
  induction fuel with
  | zero =>
    intro t ws hle r hr
    cases t with
    | nil => cases hr
    | cons a l =>
      simp only [List.length_cons] at hle
      omega
  | succ f ih =>
    intro t ws hle r hrt hrout hbl x hx
    cases ws with
    | nil =>
      simp only [cascadeAux] at hrout
      exact absurd hrt hrout
    | cons s0 ws' =>
      simp only [cascadeAux] at hrout hx
      have hfuel := cascade_fuel_step t s0 ws' f (by simpa using hle)
      by_cases hrest : r ∈ t.filter (fun rr => !(rr.subject == s0))
      · exact ih _ _ hfuel r hrest hrout hbl x hx
      · have hsub : (r.subject == s0) = true := by
          by_contra hne
          simp only [Bool.not_eq_true] at hne
          exact hrest (List.mem_filter.mpr ⟨hrt, by simp [hne]⟩)
        have hobj : r.object ∈ triggerObjects (t.filter (fun rr => rr.subject == s0)) := by
          unfold triggerObjects
          exact List.mem_map.mpr
            ⟨r, List.mem_filter.mpr ⟨List.mem_filter.mpr ⟨hrt, hsub⟩, hbl⟩, rfl⟩
        exact cascadeAux_clears f _ _ hfuel r.object (List.mem_append_right _ hobj) x hx

/-- C3: cascading delete is complete.  On the concrete chain `(A, p,
_b1)`, `(_b1, q, _b2)`, `(_b2, r, "leaf")` deleting the first statement
empties the table, so no statement referencing `_b1` or `_b2` remains;
in general, after a cascade no remaining row's subject equals a worklist
entry, and whenever a row satisfying the trigger's blank-node condition
was deleted during the cascade, no remaining row has that row's object
as its subject — the recursion runs until no dangling chain remains. -/
theorem claim_C3 :
    removeStatementCascade [cascadeRow1, cascadeRow2, cascadeRow3] "1" = [] ∧
    (∀ t ws s, s ∈ ws → ∀ r ∈ cascadeDelete t ws, r.subject ≠ s) ∧
    (∀ t ws r, r ∈ t → r ∉ cascadeDelete t ws → blankCond r = true →
      ∀ x ∈ cascadeDelete t ws, x.subject ≠ r.object) := by
  refine ⟨rfl, ?_, ?_⟩
  · intro t ws s hs r hr
    exact cascadeAux_clears (t.length + ws.length) t ws le_rfl s hs r hr
  · intro t ws r hrt hrout hbl x hx
    exact cascadeAux_complete (t.length + ws.length) t ws le_rfl r hrt hrout hbl x hx

/-- C3 witness: the two general cascade properties instantiated on
concrete tables and worklists. -/
theorem claim_C3_witness :
    sampleRow.subject ≠ "zzz" ∧ sampleRow.subject ≠ cascadeRow2.object :=
  ⟨claim_C3.2.1 [sampleRow] ["zzz"] "zzz" (by decide) sampleRow (by decide),
   claim_C3.2.2 [cascadeRow2, sampleRow] [".well-known/genid/b1"] cascadeRow2
     (by decide) (by decide) (by decide) sampleRow (by decide)⟩

/-- C8 counterexample: with full-text ranks X at 1, Y at 2 and vector
ranks Y at 1, Z at 2 and k 60, the RRF formula gives score(Y) as 1/62
plus 1/61, i.e. 123/3782, not the 2/61 the claim states. -/
theorem claim_C8_counterexample :
    rrfScore 60 [1, 2] [2, 3] 2 = 123 / 3782 ∧ (123 / 3782 : ℚ) ≠ 2 / 61 := by
  constructor
  · norm_num [rrfScore, rankOf, rrfContrib, List.findIdx?]
  · norm_num

/-- C8 amended: each chunk present in either rank list is scored as the
sum of reciprocal-rank terms over the lists in which it appears
(an absent list contributes zero), and the output is sorted by
descending score with ties broken by ascending chunk id; on the claim's
example the scores are Y at 123/3782 (that is 1/61 plus 1/62, not 2/61),
X at 1/61, Z at 1/62 and the order is Y, X, Z. -/
theorem claim_C8_amended :
    rrfSearch 60 [1, 2] [2, 3] = [(2, 123 / 3782), (1, 1 / 61), (3, 1 / 62)] ∧
    ∀ (k : Nat) (fts vec : List Nat), (rrfSearch k fts vec).Pairwise rrfLE := by
  constructor
  · norm_num [rrfSearch, rrfScore, rankOf, rrfContrib, List.findIdx?, List.dedup,
      List.insertionSort, rrfLE]
  · intro k fts vec
    exact List.sorted_insertionSort rrfLE _

end WorldsDesign
